import Mathlib

/-
  Verification development for the SPARQL repair pipeline in
  `TableInstruct/Question Answering/SPARQL/post.py`.

  Strings are embedded as `List Char`.  Each Python `re.sub` pass is embedded
  as a left-to-right scanner (`scanSub`) driven by a matcher that mirrors the
  concrete regular expression: at every position the matcher either fails or
  returns the replacement text together with the number of consumed input
  characters (always at least one for the patterns used here).  The scanner
  carries the previous original character so that word boundaries and
  look-behinds can be decided exactly as `re` does.  A fuel argument equal to
  the input length makes the recursion structural; since every step consumes
  at least one character the fuel never runs out.
-/

abbrev Str := List Char

/-- Python `\s` (ASCII whitespace: space, tab, newline, carriage return,
vertical tab, form feed). -/
def isWS (c : Char) : Bool :=
  c = ' ' || c = '\t' || c = '\n' || c = '\r' || c = Char.ofNat 11 || c = Char.ofNat 12

/-- Python `\w` (ASCII word character). -/
def isWordChar (c : Char) : Bool := c.isAlpha || c.isDigit || c = '_'

def countChar (c : Char) (s : Str) : Nat := s.count c

/-- Python `str.lstrip()`. -/
def lstrip (s : Str) : Str := s.dropWhile isWS

/-- Python `str.rstrip()`. -/
def rstrip (s : Str) : Str := (s.reverse.dropWhile isWS).reverse

/-- Python `str.strip()`. -/
def stripWS (s : Str) : Str := rstrip (lstrip s)

/-- Length of the maximal whitespace run at the start of `s` (`\s*`). -/
def wsSpan (s : Str) : Nat := (s.takeWhile isWS).length

/-- Word boundary `\b` at a position whose next character is a word
character: holds when the previous character is absent or not a word
character. -/
def atB (prev : Option Char) : Bool :=
  match prev with
  | none => true
  | some c => !isWordChar c

/-- Case-insensitive `startsWith` (pattern given in lower case). -/
def ciStartsWith : Str → Str → Bool
  | [], _ => true
  | _ :: _, [] => false
  | p :: ps, c :: cs => (p.toLower = c.toLower) && ciStartsWith ps cs

def natToStr (n : Nat) : Str := (toString n).data

/-- One step of whitespace tokenization (`re.findall(r"[^\s]+", cl)`),
folded from the right; the pair is (current token, finished tokens). -/
def splitWSStep (c : Char) (acc : Str × List Str) : Str × List Str :=
  if isWS c then ([], if acc.1 = [] then acc.2 else acc.1 :: acc.2)
  else (c :: acc.1, acc.2)

/-- `re.findall(r"[^\s]+", s)`: maximal non-whitespace runs. -/
def splitWS (s : Str) : List Str :=
  let r := s.foldr splitWSStep ([], [])
  if r.1 = [] then r.2 else r.1 :: r.2

/-- One step of Python `str.split(",")` folded from the right. -/
def splitCommaStep (c : Char) (acc : Str × List Str) : Str × List Str :=
  if c = ',' then ([], acc.1 :: acc.2) else (c :: acc.1, acc.2)

/-- Python `str.split(",")` (keeps empty pieces). -/
def splitComma (s : Str) : List Str :=
  let r := s.foldr splitCommaStep ([], [])
  r.1 :: r.2

/-- Left-to-right non-overlapping substitution, the semantics of `re.sub`:
try the matcher at each position; on success emit the replacement and resume
right after the consumed characters (the previous-character state is taken
from the original text). A matcher answer consuming zero characters is
treated as no match. -/
def scanSub (m : Option Char → Str → Option (Str × Nat)) :
    Nat → Option Char → Str → Str
  | 0, _, s => s
  | _ + 1, _, [] => []
  | fuel + 1, prev, c :: cs =>
    match m prev (c :: cs) with
    | some (rep, k) =>
      if k = 0 then c :: scanSub m fuel (some c) cs
      else rep ++ scanSub m fuel (some ((c :: cs).getD (k - 1) c)) ((c :: cs).drop k)
    | none => c :: scanSub m fuel (some c) cs

def runSub (m : Option Char → Str → Option (Str × Nat)) (s : Str) : Str :=
  scanSub m s.length none s

/-! ### Pass 1: `replace_square_brackets_globally` -/

/-- Matcher for `BRACKET_BLOCK = re.compile(r"\[(.*?)\]", flags=re.DOTALL)`
with replacement `r"{\1}"`: a `[` followed, as soon as possible because the
quantifier is lazy, by the next `]`. -/
def mBracketBlock (_prev : Option Char) (s : Str) : Option (Str × Nat) :=
  match s with
  | '[' :: rest =>
    if rest.contains ']' then
      let i := rest.findIdx (· = ']')
      some ('{' :: rest.take i ++ ['}'], i + 2)
    else none
  | _ => none

def strWhereLower : Str := "where".data
def strWHEREBrace : Str := "WHERE \x7b".data

/-- Matcher for `re.sub(r"(?i)\bWHERE\s*\[", "WHERE {", q)`. -/
def mWhereSqBracket (prev : Option Char) (s : Str) : Option (Str × Nat) :=
  if atB prev && ciStartsWith strWhereLower s then
    let r := s.drop 5
    let w := wsSpan r
    if (r.drop w).head? = some '[' then some (strWHEREBrace, 5 + w + 1) else none
  else none

def replace_square_brackets_globally (q : Str) : Str :=
  let q := runSub mBracketBlock q
  let q := runSub mWhereSqBracket q
  q.map (fun c => if c = '[' then '{' else if c = ']' then '}' else c)

/-! ### Pass 2: `map_unknown_prefixes` -/

/-- Matcher for `re.sub(r"\bPAT", REPL, text)` where `PAT` is a literal
token starting with a word character (e.g. `wdt:`). -/
def subPfxTok (pat repl : Str) (prev : Option Char) (s : Str) :
    Option (Str × Nat) :=
  if atB prev && s.take pat.length = pat then some (repl, pat.length) else none

def strWdt : Str := "wdt:".data
def strPsTok : Str := "ps:".data
def strPTok : Str := "p:".data
def strWdTok : Str := "wd:".data
def strDbo : Str := "dbo:".data
def strDbr : Str := "dbr:".data

def map_unknown_prefixes (text : Str) : Str :=
  let text := runSub (subPfxTok strWdt strDbo) text
  let text := runSub (subPfxTok strPsTok strDbo) text
  let text := runSub (subPfxTok strPTok strDbo) text
  runSub (subPfxTok strWdTok strDbr) text

/-! ### Pass 3: `sanitize_curie_localparts` -/

def isCurieHead (c : Char) : Bool := c.isAlpha || c = '_'
def isCurieBody (c : Char) : Bool := c.isAlpha || c.isDigit || c = '_' || c = '-'

/-- Character class `[^\s\.\,\;\)\}\{]` of the CURIE local part. -/
def isCurieLocal (c : Char) : Bool :=
  !isWS c && c ≠ '.' && c ≠ ',' && c ≠ ';' && c ≠ ')' && c ≠ '}' && c ≠ '{'

/-- `local.replace(":", "_").replace(" ", "_")` applied character-wise. -/
def curieFixChar (c : Char) : Char := if c = ':' || c = ' ' then '_' else c

/-- Matcher for `CURIE_RX = re.compile(r"\b([A-Za-z_][A-Za-z0-9_-]*):([^\s\.\,\;\)\}\{]+)")`
with the `_fix` replacement function of `sanitize_curie_localparts`. -/
def mCurie (prev : Option Char) (s : Str) : Option (Str × Nat) :=
  if atB prev then
    match s with
    | c :: _ =>
      if isCurieHead c then
        let pfx := s.takeWhile isCurieBody
        match s.drop pfx.length with
        | ':' :: r2 =>
          let loc := r2.takeWhile isCurieLocal
          if loc.isEmpty then none
          else some (pfx ++ ':' :: loc.map curieFixChar, pfx.length + 1 + loc.length)
        | _ => none
      else none
    | [] => none
  else none

def sanitize_curie_localparts (text : Str) : Str := runSub mCurie text

/-! ### Pass 4: `clean_bad_chars_and_quotes` -/

/-- Matcher for `re.sub(r"(?<![<=>!])>(?!\s)", " ", q)`. -/
def mGtRemoval (prev : Option Char) (s : Str) : Option (Str × Nat) :=
  match s with
  | '>' :: rest =>
    let prevOk :=
      match prev with
      | none => true
      | some c => !(c = '<' || c = '=' || c = '>' || c = '!')
    let nextOk :=
      match rest.head? with
      | none => true
      | some c => !isWS c
    if prevOk && nextOk then some ([' '], 1) else none
  | _ => none

def quoteChar : Char := Char.ofNat 39

/-- The single-quote handling of `clean_bad_chars_and_quotes`: both the odd
and the even branch execute `q.replace("'", "")`. -/
def stripSingleQuotes (q : Str) : Str :=
  if countChar quoteChar q % 2 ≠ 0 then q.filter (fun c => c ≠ quoteChar)
  else q.filter (fun c => c ≠ quoteChar)

/-- Trailing context of the clock pattern: `\b(?!")` after the final digit. -/
def clockTail (rest : Str) : Bool :=
  match rest.head? with
  | none => true
  | some c => !isWordChar c && c ≠ '"'

/-- One-digit-hour alternative of `(?<!")\b(\d{1,2}:\d{2})\b(?!")`. -/
def mClock1 (s : Str) : Option (Str × Nat) :=
  match s with
  | d1 :: ':' :: d3 :: d4 :: rest =>
    if d1.isDigit && d3.isDigit && d4.isDigit && clockTail rest then
      some ('"' :: d1 :: ':' :: d3 :: d4 :: ['"'], 4)
    else none
  | _ => none

/-- Matcher for `re.sub(r'(?<!")\b(\d{1,2}:\d{2})\b(?!")', r'"\1"', q)`:
greedy `\d{1,2}` tries two digits first, then backtracks to one. -/
def mClock (prev : Option Char) (s : Str) : Option (Str × Nat) :=
  if prev ≠ some '"' && atB prev then
    match s with
    | d1 :: d2 :: ':' :: d3 :: d4 :: rest =>
      if d1.isDigit && d2.isDigit && d3.isDigit && d4.isDigit && clockTail rest then
        some ('"' :: d1 :: d2 :: ':' :: d3 :: d4 :: ['"'], 5)
      else mClock1 s
    | _ => mClock1 s
  else none

def strContainsLower : Str := "contains".data
def strCONTAINSOpen : Str := "CONTAINS(".data

/-- Matcher for `re.sub(r"(?i)CONTAINS\s*\(\s*(.*?)\s*\)", fix_contains, q)`.
The lazy inner group together with the two `\s*` make the match end at the
first `)` after the `(`; the captured group is the stripped text in between
and may not contain a newline (`.` without `re.DOTALL`).  `fix_contains`
keeps the first two comma-separated arguments when there are at least two. -/
def mContainsCall (_prev : Option Char) (s : Str) : Option (Str × Nat) :=
  if ciStartsWith strContainsLower s then
    let r := s.drop 8
    let w := wsSpan r
    match r.drop w with
    | '(' :: rest =>
      if rest.contains ')' then
        let j := rest.findIdx (· = ')')
        let inner := stripWS (rest.take j)
        if inner.contains '\n' then none
        else
          let parts := (splitComma inner).map stripWS
          let rep :=
            if 2 ≤ parts.length then
              strCONTAINSOpen ++ parts.getD 0 [] ++ ',' :: ' ' :: parts.getD 1 [] ++ [')']
            else strCONTAINSOpen ++ inner ++ [')']
          some (rep, 8 + w + 1 + j + 1)
      else none
    | _ => none
  else none

def strAsLower : Str := "as".data
def strASQm : Str := "AS ?".data

/-- Matcher for `re.sub(r"(?i)\bAS\s+([A-Za-z_]\w*)", r"AS ?\1", q)`. -/
def mAsAlias (prev : Option Char) (s : Str) : Option (Str × Nat) :=
  if atB prev && ciStartsWith strAsLower s then
    let r := s.drop 2
    let w := wsSpan r
    if w = 0 then none
    else
      match r.drop w with
      | c :: _ =>
        if isCurieHead c then
          let grp := (r.drop w).takeWhile isWordChar
          some (strASQm ++ grp, 2 + w + grp.length)
        else none
      | [] => none
  else none

def clean_bad_chars_and_quotes (q : Str) : Str :=
  let q := q.map (fun c => if c = '&' then ' ' else c)
  let q := runSub mGtRemoval q
  let q := stripSingleQuotes q
  let q := runSub mClock q
  let q := runSub mContainsCall q
  runSub mAsAlias q

/-! ### Pass 5: `re.sub(r"(?i)\bwhere\b", "WHERE", q)` -/

def strWHERE : Str := "WHERE".data

/-- Matcher for a case-insensitive whole-word keyword replacement
`re.sub(r"(?i)\bKW\b", REP, q)`. -/
def mKeywordCI (kw rep : Str) (prev : Option Char) (s : Str) :
    Option (Str × Nat) :=
  if atB prev && ciStartsWith kw s then
    match (s.drop kw.length).head? with
    | none => some (rep, kw.length)
    | some c => if isWordChar c then none else some (rep, kw.length)
  else none

/-! ### `extract_where_body` -/

/-- Attempt of `\bWHERE\s*\{` (case-insensitive, at one position); returns
the number of characters up to and including the `{`. -/
def matchWhereOpen (prev : Option Char) (s : Str) : Option Nat :=
  if atB prev && ciStartsWith strWhereLower s then
    let r := s.drop 5
    let w := wsSpan r
    if (r.drop w).head? = some '{' then some (5 + w + 1) else none
  else none

/-- `re.search(r"(?is)\bWHERE\s*\{(.*)\}\s*", query)`: the leftmost start of
`\bWHERE\s*\{` that is followed by some later `}`; returns the head (up to
and including the `{`) and the remaining text. -/
def scanWhereOpen (prev : Option Char) (acc : Str) : Str → Option (Str × Str)
  | [] => none
  | c :: cs =>
    match matchWhereOpen prev (c :: cs) with
    | some k =>
      let rest := (c :: cs).drop k
      if rest.contains '}' then some (acc ++ (c :: cs).take k, rest)
      else scanWhereOpen (some c) (acc ++ [c]) cs
    | none => scanWhereOpen (some c) (acc ++ [c]) cs

/-- Fallback `re.search(r"(?is)\{(.*)\}\s*", query)`. -/
def scanFirstOpenBrace (acc : Str) : Str → Option (Str × Str)
  | [] => none
  | c :: cs =>
    if c = '{' && cs.contains '}' then some (acc ++ ['{'], cs)
    else scanFirstOpenBrace (acc ++ [c]) cs

/-- Split the remainder at the last `}` (the greedy `(.*)` backtracks to the
last closing brace): body before it, tail from it on. -/
def splitAtLastClose (rest : Str) : Str × Str :=
  let i := rest.length - 1 - rest.reverse.findIdx (· = '}')
  (rest.take i, rest.drop i)

def extract_where_body (query : Str) : Option (Str × Str × Str) :=
  match scanWhereOpen none [] query with
  | some (h, rest) => some (h, (splitAtLastClose rest).1, (splitAtLastClose rest).2)
  | none =>
    match scanFirstOpenBrace [] query with
    | some (h, rest) => some (h, (splitAtLastClose rest).1, (splitAtLastClose rest).2)
    | none => none

/-! ### `split_clauses` -/

/-- One character step of `split_clauses`: update nesting depth, then either
flush the buffer at a top-level `.` or append the character to the buffer.
The state is (finished clauses, buffer, depth); Python floors the depth at
zero, which truncated `Nat` subtraction does as well. -/
def splitClausesStep (st : List Str × Str × Nat) (ch : Char) :
    List Str × Str × Nat :=
  let depth :=
    if ch = '{' || ch = '(' || ch = '[' then st.2.2 + 1
    else if ch = '}' || ch = ')' || ch = ']' then st.2.2 - 1
    else st.2.2
  if ch = '.' && depth = 0 then
    (if stripWS st.2.1 = [] then st.1 else st.1 ++ [stripWS st.2.1], [], depth)
  else (st.1, st.2.1 ++ [ch], depth)

/-- Split a WHERE body into top-level clauses on `.` while respecting nested
`{...}`, `(...)`, `[...]`. -/
def split_clauses (where_body : Str) : List Str :=
  let st := where_body.foldl splitClausesStep ([], [], 0)
  if stripWS st.2.1 = [] then st.1 else st.1 ++ [stripWS st.2.1]

/-! ### Clause classification helpers -/

/-- `looks_like_subject`: variable (`?...`), IRI (`<...>`) or CURIE
(contains `:` not at position 0). -/
def looks_like_subject (tok : Str) : Bool :=
  if tok.head? = some '?' then true
  else if tok.head? = some '<' && tok.getLast? = some '>' then true
  else if tok.contains ':' && tok.head? ≠ some ':' then true
  else false

/-- The loop of `collapse_adjacent_duplicate_vars`, carrying the last kept
token: a token starting with `?` that equals it is skipped. -/
def collapseGo (prev : Option Str) : List Str → List Str
  | [] => []
  | t :: ts =>
    if t.head? = some '?' && prev = some t then collapseGo prev ts
    else t :: collapseGo (some t) ts

def collapse_adjacent_duplicate_vars (tokens : List Str) : List Str :=
  collapseGo none tokens

def blockKeywords : List Str :=
  [r"filter".data, r"optional".data, r"values".data, r"bind".data,
   r"minus".data, r"service".data, r"graph".data, r"union".data]

/-- One alternative of
`re.match(r"(?i)^(filter|optional|values|bind|minus|service|graph|union)\b", t)`. -/
def kwMatch (kw t : Str) : Bool :=
  ciStartsWith kw t &&
    (match (t.drop kw.length).head? with
     | none => true
     | some c => !isWordChar c)

def isBlockKeyword (t : Str) : Bool := blockKeywords.any (fun kw => kwMatch kw t)

/-- `re.fullmatch(r"\d+(\.\d+)?", t)`. -/
def isNumericLit (t : Str) : Bool :=
  let ds := t.takeWhile Char.isDigit
  let r := t.drop ds.length
  !ds.isEmpty && (r.isEmpty ||
    (r.head? = some '.' && !(r.drop 1).isEmpty && (r.drop 1).all Char.isDigit))

def isPunctTok (t : Str) : Bool := t == [';'] || t == [',']

/-- `while tokens and tokens[-1] in {";", ","}: tokens.pop()`. -/
def dropTrailingPunct (tokens : List Str) : List Str :=
  List.rdropWhile isPunctTok tokens

/-- The fresh variable produced by `fresh_var` after the counter reached `n`. -/
def vName (n : Nat) : Str := '?' :: 'v' :: natToStr n

/-! ### `smart_repair_where` -/

/-- The tail branches of the clause dispatch (token count not 2 and not 4):
drop a numeric second token when at least three tokens remain, then keep the
first three as a triple, otherwise skip the clause. -/
def repairTail (ts : List Str) : List Str :=
  let ts := if 3 ≤ ts.length && isNumericLit (ts.getD 1 []) then ts.eraseIdx 1 else ts
  if 3 ≤ ts.length then [ts.getD 0 [] ++ ' ' :: ts.getD 1 [] ++ ' ' :: ts.getD 2 []]
  else []

/-- The body of the `for cl in clauses` loop of `smart_repair_where` for one
clause: returns the updated fresh-variable counter and the clause strings
appended to `repaired`. -/
def repairStep (vc : Nat) (cl0 : Str) : Nat × List Str :=
  let cl := stripWS cl0
  if cl.isEmpty || cl == ['.'] then (vc, [])
  else
    let tokens := collapse_adjacent_duplicate_vars (splitWS cl)
    if (match tokens.head? with | some t => isBlockKeyword t | none => false) then
      (vc, [cl])
    else
      let tokens := dropTrailingPunct tokens
      if (match tokens.head? with | some t => !looks_like_subject t | none => false) then
        (vc, [])
      else
        match tokens with
        | [s, p] => (vc + 1, [s ++ ' ' :: p ++ ' ' :: vName (vc + 1)])
        | [s, p1, p2, o] =>
          if isNumericLit p1 || (!p1.contains ':' && !(p1.head? == some '?')) then
            (vc, [])
          else
            (vc + 1, [s ++ ' ' :: p1 ++ ' ' :: vName (vc + 1),
                      vName (vc + 1) ++ ' ' :: p2 ++ ' ' :: o])
        | ts => (vc, repairTail ts)

/-- The clause loop with the fresh-variable counter threaded through. -/
def smartRepairGo (vc : Nat) : List Str → List Str
  | [] => []
  | cl :: rest =>
    let r := repairStep vc cl
    r.2 ++ smartRepairGo r.1 rest

def strDotSep : Str := " . ".data

/-- Matcher for the final `re.sub(r"\s*\.\s*\.\s*", " . ", out)`. -/
def mDoubleDot (_prev : Option Char) (s : Str) : Option (Str × Nat) :=
  let w0 := wsSpan s
  match s.drop w0 with
  | '.' :: r1 =>
    let w1 := wsSpan r1
    match r1.drop w1 with
    | '.' :: r2 => some (strDotSep, w0 + 1 + w1 + 1 + wsSpan r2)
    | _ => none
  | _ => none

/-- Structural repair of the WHERE content; the fresh-variable counter starts
at zero on every invocation. -/
def smart_repair_where (where_body : Str) : Str :=
  let repaired := smartRepairGo 0 (split_clauses where_body)
  let out := List.intercalate strDotSep (repaired.filter (fun x => !x.isEmpty))
  stripWS (runSub mDoubleDot out)

/-! ### `normalize_query_text` -/

/-- Matcher for `re.sub(r"\s+", " ", q)`. -/
def mWSRun (_prev : Option Char) (s : Str) : Option (Str × Nat) :=
  let w := wsSpan s
  if w = 0 then none else some ([' '], w)

def strSelectLower : Str := "select".data
def strSELECT : Str := "SELECT".data
def strAskLower : Str := "ask".data
def strASK : Str := "ASK".data
def strLimitLower : Str := "limit".data
def strLIMIT : Str := "LIMIT".data
def strOrderLower : Str := "order".data
def strByLower : Str := "by".data
def strORDERBY : Str := "ORDER BY".data

/-- Matcher for `re.sub(r"(?i)\border\s+by\b", "ORDER BY", q)`. -/
def mOrderBy (prev : Option Char) (s : Str) : Option (Str × Nat) :=
  if atB prev && ciStartsWith strOrderLower s then
    let r := s.drop 5
    let w := wsSpan r
    if w = 0 then none
    else if ciStartsWith strByLower (r.drop w) then
      match (r.drop (w + 2)).head? with
      | none => some (strORDERBY, 5 + w + 2)
      | some c => if isWordChar c then none else some (strORDERBY, 5 + w + 2)
    else none
  else none

def strSpOpenBrace : Str := " \x7b ".data
def strSpCloseBrace : Str := " \x7d ".data

/-- Matcher for `re.sub(r"\s*BR\s*", " BR ", q)` with `BR` one of the two
braces. -/
def mBraceSpace (br : Char) (rep : Str) (_prev : Option Char) (s : Str) :
    Option (Str × Nat) :=
  let w := wsSpan s
  match s.drop w with
  | c :: r => if c = br then some (rep, w + 1 + wsSpan r) else none
  | [] => none

def strDESC : Str := "DESC".data
def strORDERBYDESCOpen : Str := "ORDER BY DESC(".data

/-- Matcher for `re.sub(r"ORDER BY\s*DESC\s*\(", "ORDER BY DESC(", q)`
(case-sensitive, no word boundaries). -/
def mOrderByDesc (_prev : Option Char) (s : Str) : Option (Str × Nat) :=
  if s.take 8 = strORDERBY then
    let r := s.drop 8
    let w := wsSpan r
    if (r.drop w).take 4 = strDESC then
      let r2 := r.drop (w + 4)
      let w2 := wsSpan r2
      if (r2.drop w2).head? = some '(' then
        some (strORDERBYDESCOpen, 8 + w + 4 + w2 + 1)
      else none
    else none
  else none

def strCloseLIMIT : Str := ") LIMIT".data

/-- Matcher for `re.sub(r"\)\s*limit", ") LIMIT", q, flags=re.IGNORECASE)`
(no trailing word boundary). -/
def mCloseParLimit (_prev : Option Char) (s : Str) : Option (Str × Nat) :=
  match s with
  | ')' :: r =>
    let w := wsSpan r
    if ciStartsWith strLimitLower (r.drop w) then some (strCloseLIMIT, 1 + w + 5)
    else none
  | _ => none

def normalize_query_text (q : Str) : Str :=
  let q := runSub mWSRun (stripWS q)
  let q := runSub (mKeywordCI strSelectLower strSELECT) q
  let q := runSub (mKeywordCI strAskLower strASK) q
  let q := runSub mOrderBy q
  let q := runSub (mKeywordCI strLimitLower strLIMIT) q
  let q := runSub (mBraceSpace '{' strSpOpenBrace) q
  let q := runSub (mBraceSpace '}' strSpCloseBrace) q
  let q := runSub mOrderByDesc q
  runSub mCloseParLimit q |> stripWS

/-! ### `rebalance_braces_and_parens` -/

/-- `while to_remove and q.endswith("}"): q = q[:-1].rstrip(); to_remove -= 1`. -/
def dropEndBraces : Nat → Str → Str
  | 0, q => q
  | n + 1, q =>
    if q.getLast? = some '}' then dropEndBraces n (rstrip q.dropLast) else q

/-- `while to_remove and q.endswith(")"): q = q[:-1].rstrip(); to_remove -= 1`. -/
def dropEndParens : Nat → Str → Str
  | 0, q => q
  | n + 1, q =>
    if q.getLast? = some ')' then dropEndParens n (rstrip q.dropLast) else q

def strSpBrace : Str := " \x7d".data

/-- `" }" * n`. -/
def bracePad (n : Nat) : Str := (List.replicate n strSpBrace).flatten

/-- Brace phase of `rebalance_braces_and_parens`. -/
def braceFix (q : Str) : Str :=
  let opens := countChar '{' q
  let closes := countChar '}' q
  if opens < closes then dropEndBraces (closes - opens) q
  else if closes < opens then q ++ bracePad (opens - closes)
  else q

/-- Parenthesis phase of `rebalance_braces_and_parens`. -/
def parenFix (q : Str) : Str :=
  let lpar := countChar '(' q
  let rpar := countChar ')' q
  if lpar < rpar then dropEndParens (rpar - lpar) q
  else if rpar < lpar then q ++ List.replicate (lpar - rpar) ')'
  else q

def rebalance_braces_and_parens (q : Str) : Str := parenFix (braceFix q)

/-! ### `fix_query` -/

def fix_query (q : Str) : Str :=
  let q := replace_square_brackets_globally q
  let q := map_unknown_prefixes q
  let q := sanitize_curie_localparts q
  let q := clean_bad_chars_and_quotes q
  let q := runSub (mKeywordCI strWhereLower strWHERE) q
  let q :=
    match extract_where_body q with
    | some (head, body, tail) => head ++ smart_repair_where body ++ tail
    | none => q
  let q := normalize_query_text q
  rebalance_braces_and_parens q

/-- A Python value as seen by `fix_query`'s `isinstance(q, str)` guard:
either a string or some non-string value. -/
inductive PyVal where
  | pyStr : Str → PyVal
  | pyOther : Nat → PyVal
deriving DecidableEq

/-- `fix_query` including the defensive non-string guard: a non-string is
returned unchanged. -/
def fix_query_py : PyVal → PyVal
  | .pyStr s => .pyStr (fix_query s)
  | .pyOther n => .pyOther n

/-! ### Concrete inputs used in the claim theorems -/

def c2Input : Str := "SELECT ?x WHERE [?x wdt:P106 wd:Q5]".data
def c2Output : Str := "SELECT ?x WHERE \x7b ?x dbo:P106 dbr:Q5 \x7d".data

def c3cexClause : Str := "?x foo bar ?y".data
def c3Clause : Str := "?x dbo:director dbo:nationality ?y".data
def c3Out : Str := "?x dbo:director ?v1 . ?v1 dbo:nationality ?y".data

def c4Clause : Str := "?x dbo:author".data
def c4Out : Str := "?x dbo:author ?v1".data
def c4TwoClause : Str := "?a dbo:b . ?x dbo:author".data
def c4TwoOut : Str := "?a dbo:b ?v1 . ?x dbo:author ?v2".data

def c5Body : Str := "?a dbo:b ?c . Position dbo:value ?y".data
def c5BodyOut : Str := "?a dbo:b ?c".data
def c5Clause : Str := "Position dbo:value ?y".data

def c6ColonInput : Str := "dbr:Kot:Rock_Standard".data
def c6ColonOutput : Str := "dbr:Kot_Rock_Standard".data
def c6SpaceInput : Str := "dbr:Kot Rock".data

def c7cexInput : Str := ")".data
def c8cexInput : Str := "\x7d)".data

def c9cexClause : Str := "?x".data

def c10Clause : Str := "?x ?x dbo:p ?y".data
def c10Collapsed : Str := "?x dbo:p ?y".data
def c10FilterClause : Str := "FILTER ?x ?x".data

/-! ### Counting lemmas for the rebalancing pass -/

lemma countChar_append (c : Char) (a b : Str) :
    countChar c (a ++ b) = countChar c a + countChar c b := by
  simp [countChar, List.count_append]

lemma countChar_dropWhile_ws (c : Char) (h : isWS c = false) (s : Str) :
    countChar c (s.dropWhile isWS) = countChar c s := by
  conv_rhs => rw [← List.takeWhile_append_dropWhile (p := isWS) (l := s)]
  rw [countChar_append]
  have hz : countChar c (s.takeWhile isWS) = 0 := by
    refine List.count_eq_zero.mpr ?_
    intro hc
    have := List.mem_takeWhile_imp hc
    rw [h] at this
    exact Bool.false_ne_true this
  omega

lemma countChar_reverse (c : Char) (s : Str) :
    countChar c s.reverse = countChar c s := by
  simp [countChar, List.count_reverse]

lemma countChar_rstrip (c : Char) (h : isWS c = false) (s : Str) :
    countChar c (rstrip s) = countChar c s := by
  unfold rstrip
  rw [countChar_reverse, countChar_dropWhile_ws c h, countChar_reverse]

lemma countChar_dropLast_ne (c d : Char) (q : Str) (h : q.getLast? = some d)
    (hne : d ≠ c) : countChar c q.dropLast = countChar c q := by
  have hq : q ≠ [] := by
    intro e; subst e; simp at h
  have hdec : q.dropLast ++ [q.getLast hq] = q := List.dropLast_append_getLast hq
  have hd : q.getLast hq = d := by
    rw [List.getLast?_eq_getLast q hq] at h
    exact Option.some_injective _ h
  conv_rhs => rw [← hdec]
  rw [countChar_append, hd]
  have : countChar c [d] = 0 := by
    simp [countChar, List.count_singleton']
    intro hcontra
    exact hne (by simpa using hcontra)
  omega

lemma countChar_dropLast_self (c : Char) (q : Str) (h : q.getLast? = some c) :
    countChar c q.dropLast + 1 = countChar c q := by
  have hq : q ≠ [] := by
    intro e; subst e; simp at h
  have hdec : q.dropLast ++ [q.getLast hq] = q := List.dropLast_append_getLast hq
  have hd : q.getLast hq = c := by
    rw [List.getLast?_eq_getLast q hq] at h
    exact Option.some_injective _ h
  conv_rhs => rw [← hdec]
  rw [countChar_append, hd]
  simp [countChar]

lemma dropEndParens_count (c : Char) (hws : isWS c = false) (hc : c ≠ ')') :
    ∀ (n : Nat) (q : Str), countChar c (dropEndParens n q) = countChar c q := by
  intro n
  induction n with
  | zero => intro q; rfl
  | succ n ih =>
    intro q
    by_cases h : q.getLast? = some ')'
    · rw [dropEndParens, if_pos h, ih, countChar_rstrip c hws,
        countChar_dropLast_ne c ')' q h (fun e => hc e.symm)]
    · rw [dropEndParens, if_neg h]

lemma dropEndBraces_count (c : Char) (hws : isWS c = false) (hc : c ≠ '}') :
    ∀ (n : Nat) (q : Str), countChar c (dropEndBraces n q) = countChar c q := by
  intro n
  induction n with
  | zero => intro q; rfl
  | succ n ih =>
    intro q
    by_cases h : q.getLast? = some '}'
    · rw [dropEndBraces, if_pos h, ih, countChar_rstrip c hws,
        countChar_dropLast_ne c '}' q h (fun e => hc e.symm)]
    · rw [dropEndBraces, if_neg h]

lemma dropEndParens_stuck (m : Nat) (q : Str) (h : q.getLast? ≠ some ')') :
    dropEndParens m q = q := by
  cases m with
  | zero => rfl
  | succ m => rw [dropEndParens, if_neg h]

/-- The parenthesis removal loop, run with fuel equal to the surplus of `)`,
either reaches balance or gets stuck on a string not ending in `)`. -/
lemma dropEndParens_spec :
    ∀ (n : Nat) (q : Str), countChar ')' q = countChar '(' q + n →
      countChar ')' (dropEndParens n q) = countChar '(' (dropEndParens n q) ∨
        (countChar '(' (dropEndParens n q) < countChar ')' (dropEndParens n q) ∧
          (dropEndParens n q).getLast? ≠ some ')') := by
  intro n
  induction n with
  | zero =>
    intro q h
    left
    simpa [dropEndParens] using h
  | succ n ih =>
    intro q h
    by_cases hl : q.getLast? = some ')'
    · rw [dropEndParens, if_pos hl]
      refine ih (rstrip q.dropLast) ?_
      have h1 : countChar ')' q.dropLast + 1 = countChar ')' q :=
        countChar_dropLast_self ')' q hl
      have h2 : countChar '(' q.dropLast = countChar '(' q :=
        countChar_dropLast_ne '(' ')' q hl (by decide)
      have h3 : countChar ')' (rstrip q.dropLast) = countChar ')' q.dropLast :=
        countChar_rstrip ')' (by decide) _
      have h4 : countChar '(' (rstrip q.dropLast) = countChar '(' q.dropLast :=
        countChar_rstrip '(' (by decide) _
      omega
    · rw [dropEndParens, if_neg hl]
      right
      exact ⟨by omega, hl⟩

lemma bracePad_succ (n : Nat) : bracePad (n + 1) = strSpBrace ++ bracePad n := by
  simp [bracePad, List.replicate_succ]

lemma countChar_strSpBrace (c : Char) (hsp : c ≠ ' ') (hbr : c ≠ '}') :
    countChar c strSpBrace = 0 := by
  refine List.count_eq_zero.mpr ?_
  intro hc
  have he : strSpBrace = [' ', '}'] := rfl
  rw [he] at hc
  rcases (by simpa using hc : c = ' ' ∨ c = '}') with h | h
  · exact hsp h
  · exact hbr h

lemma countChar_bracePad (c : Char) (hsp : c ≠ ' ') (hbr : c ≠ '}') (n : Nat) :
    countChar c (bracePad n) = 0 := by
  induction n with
  | zero => rfl
  | succ n ih =>
    rw [bracePad_succ, countChar_append, ih, countChar_strSpBrace c hsp hbr]

lemma countChar_bracePad_close (n : Nat) : countChar '}' (bracePad n) = n := by
  induction n with
  | zero => rfl
  | succ n ih =>
    rw [bracePad_succ, countChar_append, ih]
    have h1 : countChar '}' strSpBrace = 1 := rfl
    omega

lemma countChar_replicate_rpar (c : Char) (n : Nat) :
    countChar c (List.replicate n ')') = if ')' = c then n else 0 := by
  simp [countChar, List.count_replicate]

lemma braceFix_of_le (q : Str) (h : countChar '}' q ≤ countChar '{' q) :
    braceFix q = q ++ bracePad (countChar '{' q - countChar '}' q) := by
  unfold braceFix
  rw [if_neg (by omega)]
  by_cases hlt : countChar '}' q < countChar '{' q
  · rw [if_pos hlt]
  · rw [if_neg hlt]
    have : countChar '{' q - countChar '}' q = 0 := by omega
    rw [this]
    simp [bracePad]

lemma braceFix_of_balanced (q : Str) (h : countChar '{' q = countChar '}' q) :
    braceFix q = q := by
  unfold braceFix
  rw [if_neg (by omega), if_neg (by omega)]

lemma braceFix_count (c : Char) (hws : isWS c = false) (hbr : c ≠ '}') (q : Str) :
    countChar c (braceFix q) = countChar c q := by
  unfold braceFix
  by_cases h1 : countChar '{' q < countChar '}' q
  · rw [if_pos h1, dropEndBraces_count c hws hbr]
  · rw [if_neg h1]
    have hsp : c ≠ ' ' := by
      intro e
      subst e
      simp [isWS] at hws
    by_cases h2 : countChar '}' q < countChar '{' q
    · rw [if_pos h2, countChar_append, countChar_bracePad c hsp hbr]
      omega
    · rw [if_neg h2]

lemma parenFix_of_le (q : Str) (h : countChar ')' q ≤ countChar '(' q) :
    parenFix q = q ++ List.replicate (countChar '(' q - countChar ')' q) ')' := by
  unfold parenFix
  rw [if_neg (by omega)]
  by_cases hlt : countChar ')' q < countChar '(' q
  · rw [if_pos hlt]
  · rw [if_neg hlt]
    have : countChar '(' q - countChar ')' q = 0 := by omega
    rw [this]
    simp

lemma parenFix_of_gt (q : Str) (h : countChar '(' q < countChar ')' q) :
    parenFix q = dropEndParens (countChar ')' q - countChar '(' q) q := by
  unfold parenFix
  rw [if_pos h]

/-! ### Claims C7 and C8 -/

/-- Claim C7 counterexample: the input string `)` has one more `)` than `(`,
yet the full repair pipeline returns the empty string — it removes the
trailing `)` instead of appending one. -/
theorem claim_C7_cex :
    countChar ')' c7cexInput = countChar '(' c7cexInput + 1 ∧
    countChar ')' (fix_query c7cexInput) = 0 := by decide

/-- Claim C7 (amended): for every string with `N` more `(` than `)`, the
rebalancing pass appends exactly `N` occurrences of `)` (the preceding brace
phase of the same pass changes no parenthesis count). -/
theorem claim_C7 (q : Str) (n : Nat) (hn : 0 < n)
    (h : countChar '(' q = countChar ')' q + n) :
    countChar '(' (braceFix q) = countChar '(' q ∧
    countChar ')' (braceFix q) = countChar ')' q ∧
    rebalance_braces_and_parens q = braceFix q ++ List.replicate n ')' := by
  have h1 : countChar '(' (braceFix q) = countChar '(' q :=
    braceFix_count '(' (by decide) (by decide) q
  have h2 : countChar ')' (braceFix q) = countChar ')' q :=
    braceFix_count ')' (by decide) (by decide) q
  refine ⟨h1, h2, ?_⟩
  have hreb : rebalance_braces_and_parens q = parenFix (braceFix q) := rfl
  rw [hreb, parenFix_of_le (braceFix q) (by omega)]
  have hd : countChar '(' (braceFix q) - countChar ')' (braceFix q) = n := by omega
  rw [hd]

def c7wInput : Str := "((".data

theorem claim_C7_witness :
    rebalance_braces_and_parens c7wInput = braceFix c7wInput ++ List.replicate 2 ')' :=
  (claim_C7 c7wInput 2 (by decide) (by decide)).2.2

/-- Claim C8 counterexample: on input `})` one rebalancing pass returns `}`
whose brace counts differ, and a second pass changes it again (to the empty
string). -/
theorem claim_C8_cex :
    ¬ (countChar '{' (rebalance_braces_and_parens c8cexInput) =
         countChar '}' (rebalance_braces_and_parens c8cexInput) ∧
       rebalance_braces_and_parens (rebalance_braces_and_parens c8cexInput) =
         rebalance_braces_and_parens c8cexInput) := by decide

/-- Claim C8 (amended): for every input whose `{` count is at least its `}`
count, one rebalancing pass balances the braces and a second pass leaves the
result unchanged.  (With surplus closing braces the removal loop can get
stuck on a string not ending in `}` or `)`, refuting the unrestricted
claim.) -/
theorem claim_C8 (q : Str) (h : countChar '}' q ≤ countChar '{' q) :
    countChar '{' (rebalance_braces_and_parens q) =
      countChar '}' (rebalance_braces_and_parens q) ∧
    rebalance_braces_and_parens (rebalance_braces_and_parens q) =
      rebalance_braces_and_parens q := by
  have hbo : countChar '{' (braceFix q) = countChar '{' q := by
    rw [braceFix_of_le q h, countChar_append,
      countChar_bracePad '{' (by decide) (by decide)]
    omega
  have hbc : countChar '}' (braceFix q) = countChar '{' q := by
    rw [braceFix_of_le q h, countChar_append, countChar_bracePad_close]
    omega
  have hreb : rebalance_braces_and_parens q = parenFix (braceFix q) := rfl
  by_cases hp : countChar ')' (braceFix q) ≤ countChar '(' (braceFix q)
  · have hR : rebalance_braces_and_parens q =
        braceFix q ++ List.replicate
          (countChar '(' (braceFix q) - countChar ')' (braceFix q)) ')' := by
      rw [hreb, parenFix_of_le _ hp]
    have hro : countChar '{' (rebalance_braces_and_parens q) = countChar '{' q := by
      rw [hR, countChar_append, countChar_replicate_rpar]
      simp [hbo]
    have hrc : countChar '}' (rebalance_braces_and_parens q) = countChar '{' q := by
      rw [hR, countChar_append, countChar_replicate_rpar]
      simp [hbc]
    have hrl : countChar '(' (rebalance_braces_and_parens q) =
        countChar '(' (braceFix q) := by
      rw [hR, countChar_append, countChar_replicate_rpar]
      simp
    have hrr : countChar ')' (rebalance_braces_and_parens q) =
        countChar '(' (braceFix q) := by
      rw [hR, countChar_append, countChar_replicate_rpar]
      simp
      omega
    refine ⟨by omega, ?_⟩
    have hb2 : braceFix (rebalance_braces_and_parens q) =
        rebalance_braces_and_parens q := braceFix_of_balanced _ (by omega)
    show parenFix (braceFix (rebalance_braces_and_parens q)) = _
    rw [hb2, parenFix_of_le _ (by omega)]
    have hz : countChar '(' (rebalance_braces_and_parens q) -
        countChar ')' (rebalance_braces_and_parens q) = 0 := by omega
    rw [hz]
    simp
  · push_neg at hp
    have hparen : countChar ')' (braceFix q) =
        countChar '(' (braceFix q) +
          (countChar ')' (braceFix q) - countChar '(' (braceFix q)) := by omega
    have hR : rebalance_braces_and_parens q =
        dropEndParens (countChar ')' (braceFix q) - countChar '(' (braceFix q))
          (braceFix q) := by
      rw [hreb, parenFix_of_gt _ hp]
    have hro : countChar '{' (rebalance_braces_and_parens q) = countChar '{' q := by
      rw [hR, dropEndParens_count '{' (by decide) (by decide)]
      exact hbo
    have hrc : countChar '}' (rebalance_braces_and_parens q) = countChar '{' q := by
      rw [hR, dropEndParens_count '}' (by decide) (by decide)]
      exact hbc
    have hspec := dropEndParens_spec
      (countChar ')' (braceFix q) - countChar '(' (braceFix q)) (braceFix q) hparen
    rw [← hR] at hspec
    refine ⟨by omega, ?_⟩
    have hb2 : braceFix (rebalance_braces_and_parens q) =
        rebalance_braces_and_parens q := braceFix_of_balanced _ (by omega)
    show parenFix (braceFix (rebalance_braces_and_parens q)) = _
    rw [hb2]
    rcases hspec with heq | hstuck
    · rw [parenFix_of_le _ (le_of_eq heq)]
      have hz : countChar '(' (rebalance_braces_and_parens q) -
          countChar ')' (rebalance_braces_and_parens q) = 0 := by omega
      rw [hz]
      simp
    · rw [parenFix_of_gt _ hstuck.1]
      exact dropEndParens_stuck _ _ hstuck.2

def c8wInput : Str := "\x7b(".data

theorem claim_C8_witness :
    countChar '{' (rebalance_braces_and_parens c8wInput) =
      countChar '}' (rebalance_braces_and_parens c8wInput) ∧
    rebalance_braces_and_parens (rebalance_braces_and_parens c8wInput) =
      rebalance_braces_and_parens c8wInput :=
  claim_C8 c8wInput (by decide)

/-! ### Claims C1, C2, C6 -/

/-- Claim C1: the repair entry point is total.  The embedding `fix_query_py`
is a total Lean function, so termination without exceptions holds by
construction; it maps every string to a string, and returns every non-string
value unchanged (the `isinstance(q, str)` guard). -/
theorem claim_C1 :
    (∀ s : Str, ∃ t : Str, fix_query_py (PyVal.pyStr s) = PyVal.pyStr t) ∧
    (∀ n : Nat, fix_query_py (PyVal.pyOther n) = PyVal.pyOther n) :=
  ⟨fun s => ⟨fix_query s, rfl⟩, fun _ => rfl⟩

/-- Claim C2: the full pipeline maps `SELECT ?x WHERE [?x wdt:P106 wd:Q5]`
to exactly `SELECT ?x WHERE { ?x dbo:P106 dbr:Q5 }`. -/
theorem claim_C2 : fix_query c2Input = c2Output := by decide

/-- Claim C6 (code bug): the colon half of the claim holds —
`dbr:Kot:Rock_Standard` becomes `dbr:Kot_Rock_Standard` — but the space half
does not: the local-part character class `[^\s\.\,\;\)\}\{]` of `CURIE_RX`
can never match a space, so the match stops in front of any space, the
`.replace(" ", "_")` of `sanitize_curie_localparts` never fires, and
`dbr:Kot Rock` is returned unchanged, contradicting the function's own
docstring. -/
theorem claim_C6 :
    sanitize_curie_localparts c6ColonInput = c6ColonOutput ∧
    sanitize_curie_localparts c6SpaceInput = c6SpaceInput := by decide

/-! ### Claims C3, C4, C5, C9: the clause dispatch of `smart_repair_where` -/

/-- Claim C3 counterexample: `?x foo bar ?y` is a clause of exactly four
tokens whose first token looks like a valid subject and is no block keyword,
yet the repaired WHERE body is empty — the clause is dropped, not split into
two triples, because the second token `foo` neither contains `:` nor starts
with `?`. -/
theorem claim_C3_cex :
    splitWS c3cexClause =
      [(r"?x").data, (r"foo").data, (r"bar").data, (r"?y").data] ∧
    looks_like_subject ((r"?x").data) = true ∧
    isBlockKeyword ((r"?x").data) = false ∧
    smart_repair_where c3cexClause = [] := by decide

/-- Claim C3 (amended): a clause of exactly 4 tokens with a valid-looking,
non-keyword subject is split into `S P1 ?vN . ?vN P2 O` through a fresh
variable, provided additionally that the second token is not purely numeric
and contains `:` or starts with `?` (otherwise the clause is dropped); in
particular `?x dbo:director dbo:nationality ?y` yields
`?x dbo:director ?v1 . ?v1 dbo:nationality ?y`. -/
theorem claim_C3 :
    (∀ (vc : Nat) (cl s p1 p2 o : Str),
      stripWS cl = cl →
      collapse_adjacent_duplicate_vars (splitWS cl) = [s, p1, p2, o] →
      isBlockKeyword s = false →
      isPunctTok o = false →
      looks_like_subject s = true →
      (isNumericLit p1 || (!p1.contains ':' && !(p1.head? == some '?'))) = false →
      repairStep vc cl = (vc + 1,
        [s ++ ' ' :: p1 ++ ' ' :: vName (vc + 1),
         vName (vc + 1) ++ ' ' :: p2 ++ ' ' :: o])) ∧
    smart_repair_where c3Clause = c3Out := by
  refine ⟨?_, by decide⟩
  intro vc cl s p1 p2 o hstrip htok hkw hpunct hsubj hpred
  have hne : cl ≠ [] := by
    intro e
    subst e
    have hz : collapse_adjacent_duplicate_vars (splitWS ([] : Str)) = [] := rfl
    rw [hz] at htok
    exact List.noConfusion htok
  have hdot : cl ≠ ['.'] := by
    intro e
    subst e
    have hz : collapse_adjacent_duplicate_vars (splitWS (['.'] : Str)) = [['.']] := rfl
    rw [hz] at htok
    have hlen := congrArg List.length htok
    simp at hlen
  have hguard : ¬((cl.isEmpty || cl == ['.']) = true) := by
    simp only [Bool.or_eq_true, List.isEmpty_iff, beq_iff_eq]
    rintro (h | h)
    · exact hne h
    · exact hdot h
  have hdp : dropTrailingPunct [s, p1, p2, o] = [s, p1, p2, o] := by
    apply List.rdropWhile_eq_self_iff.mpr
    intro hl
    have hgl : ([s, p1, p2, o] : List Str).getLast hl = o := rfl
    rw [hgl]
    simp [hpunct]
  simp only [repairStep, hstrip, htok]
  rw [if_neg hguard]
  simp only [List.head?_cons, hkw, hdp, hsubj, Bool.not_true, Bool.false_eq_true,
    if_false, hpred]

def c3T1 : Str := "?x dbo:director ?v1".data
def c3T2 : Str := "?v1 dbo:nationality ?y".data

theorem claim_C3_witness : repairStep 0 c3Clause = (1, [c3T1, c3T2]) := by
  have h := claim_C3.1 0 c3Clause ((r"?x").data) ((r"dbo:director").data)
    ((r"dbo:nationality").data) ((r"?y").data)
    (by decide) (by decide) (by decide) (by decide) (by decide) (by decide)
  exact h.trans (by decide)

/-- Claim C4: a clause of exactly 2 tokens with a valid-looking, non-keyword
subject gets a fresh variable appended as object (`?v(n+1)` when the counter
stood at `n`); `smart_repair_where` starts the counter at 0 on every
invocation (it is pure, so nothing can carry over between calls), so
`?x dbo:author` yields `?x dbo:author ?v1`, and within one call the numbers
continue `?v1`, `?v2`, … as the second concrete conjunct shows. -/
theorem claim_C4 :
    (∀ (vc : Nat) (cl s p : Str),
      stripWS cl = cl →
      collapse_adjacent_duplicate_vars (splitWS cl) = [s, p] →
      isBlockKeyword s = false →
      isPunctTok p = false →
      looks_like_subject s = true →
      repairStep vc cl = (vc + 1, [s ++ ' ' :: p ++ ' ' :: vName (vc + 1)])) ∧
    smart_repair_where c4Clause = c4Out ∧
    smart_repair_where c4TwoClause = c4TwoOut := by
  refine ⟨?_, by decide, by decide⟩
  intro vc cl s p hstrip htok hkw hpunct hsubj
  have hne : cl ≠ [] := by
    intro e
    subst e
    have hz : collapse_adjacent_duplicate_vars (splitWS ([] : Str)) = [] := rfl
    rw [hz] at htok
    exact List.noConfusion htok
  have hdot : cl ≠ ['.'] := by
    intro e
    subst e
    have hz : collapse_adjacent_duplicate_vars (splitWS (['.'] : Str)) = [['.']] := rfl
    rw [hz] at htok
    have hlen := congrArg List.length htok
    simp at hlen
  have hguard : ¬((cl.isEmpty || cl == ['.']) = true) := by
    simp only [Bool.or_eq_true, List.isEmpty_iff, beq_iff_eq]
    rintro (h | h)
    · exact hne h
    · exact hdot h
  have hdp : dropTrailingPunct [s, p] = [s, p] := by
    apply List.rdropWhile_eq_self_iff.mpr
    intro hl
    have hgl : ([s, p] : List Str).getLast hl = p := rfl
    rw [hgl]
    simp [hpunct]
  simp only [repairStep, hstrip, htok]
  rw [if_neg hguard]
  simp only [List.head?_cons, hkw, hdp, hsubj, Bool.not_true, Bool.false_eq_true, if_false]

theorem claim_C4_witness : repairStep 0 c4Clause = (1, [c4Out]) := by
  have h := claim_C4.1 0 c4Clause ((r"?x").data) ((r"dbo:author").data)
    (by decide) (by decide) (by decide) (by decide) (by decide)
  exact h.trans (by decide)

/-- Claim C5: every clause whose first token (after duplicate-variable
collapsing) is neither a variable, nor an IRI, nor a CURIE — and which is not
passed through as a block-keyword clause by the earlier dispatch case — is
dropped entirely; in particular `Position dbo:value ?y` leaves no trace in
the repaired body. -/
theorem claim_C5 :
    (∀ (vc : Nat) (cl t : Str) (rest : List Str),
      stripWS cl = cl →
      collapse_adjacent_duplicate_vars (splitWS cl) = t :: rest →
      isBlockKeyword t = false →
      looks_like_subject t = false →
      repairStep vc cl = (vc, [])) ∧
    smart_repair_where c5Clause = [] ∧
    smart_repair_where c5Body = c5BodyOut := by
  refine ⟨?_, by decide, by decide⟩
  intro vc cl t rest hstrip htok hkw hsubj
  have hne : cl ≠ [] := by
    intro e
    subst e
    have hz : collapse_adjacent_duplicate_vars (splitWS ([] : Str)) = [] := rfl
    rw [hz] at htok
    exact List.noConfusion htok
  by_cases hdot : cl = ['.']
  · simp only [repairStep, hstrip]
    rw [if_pos (by simp [hdot])]
  · have hguard : ¬((cl.isEmpty || cl == ['.']) = true) := by
      simp only [Bool.or_eq_true, List.isEmpty_iff, beq_iff_eq]
      rintro (h | h)
      · exact hne h
      · exact hdot h
    simp only [repairStep, hstrip, htok]
    rw [if_neg hguard]
    simp only [List.head?_cons, hkw, Bool.false_eq_true, if_false]
    rcases hr : dropTrailingPunct (t :: rest) with _ | ⟨t2, r2⟩
    · simp only [List.head?_nil]
      rfl
    · have hpre := List.rdropWhile_prefix isPunctTok (t :: rest)
      rw [show List.rdropWhile isPunctTok (t :: rest) = dropTrailingPunct (t :: rest)
          from rfl, hr] at hpre
      obtain ⟨u, hu⟩ := hpre
      have ht2 : t2 = t := by
        have := congrArg List.head? hu
        simpa using this
      subst ht2
      simp only [List.head?_cons, hsubj, Bool.not_false, if_true]

theorem claim_C5_witness : repairStep 7 c5Clause = (7, []) :=
  claim_C5.1 7 c5Clause ((r"Position").data) [(r"dbo:value").data, (r"?y").data]
    (by decide) (by decide) (by decide) (by decide)

/-- Claim C9 counterexample: the single-token clause `?x` has a valid-looking
subject and matches none of the earlier dispatch cases, yet it is dropped —
the repaired body is empty, not `?x`: the loop ends in an unconditional
`continue` that skips such clauses. -/
theorem claim_C9_cex :
    looks_like_subject c9cexClause = true ∧
    isBlockKeyword c9cexClause = false ∧
    splitWS c9cexClause = [c9cexClause] ∧
    smart_repair_where c9cexClause = [] ∧
    smart_repair_where c9cexClause ≠ c9cexClause := by decide

def c9Body : Str := "?a dbo:b ?c . ?x".data
def c9BodyOut : Str := "?a dbo:b ?c".data

/-- Claim C9 (amended): a clause with a valid-looking, non-keyword subject
that matches none of the earlier dispatch cases (a single token after
collapsing) is dropped from the repaired WHERE body, not kept; in particular
`?x` disappears. -/
theorem claim_C9 :
    (∀ (vc : Nat) (cl t : Str),
      stripWS cl = cl →
      collapse_adjacent_duplicate_vars (splitWS cl) = [t] →
      isBlockKeyword t = false →
      isPunctTok t = false →
      looks_like_subject t = true →
      repairStep vc cl = (vc, [])) ∧
    smart_repair_where c9Body = c9BodyOut := by
  refine ⟨?_, by decide⟩
  intro vc cl t hstrip htok hkw hpunct hsubj
  have hne : cl ≠ [] := by
    intro e
    subst e
    have hz : collapse_adjacent_duplicate_vars (splitWS ([] : Str)) = [] := rfl
    rw [hz] at htok
    exact List.noConfusion htok
  by_cases hdot : cl = ['.']
  · simp only [repairStep, hstrip]
    rw [if_pos (by simp [hdot])]
  · have hguard : ¬((cl.isEmpty || cl == ['.']) = true) := by
      simp only [Bool.or_eq_true, List.isEmpty_iff, beq_iff_eq]
      rintro (h | h)
      · exact hne h
      · exact hdot h
    have hdp : dropTrailingPunct [t] = [t] := by
      apply List.rdropWhile_eq_self_iff.mpr
      intro hl
      have hgl : ([t] : List Str).getLast hl = t := rfl
      rw [hgl]
      simp [hpunct]
    simp only [repairStep, hstrip, htok]
    rw [if_neg hguard]
    simp only [List.head?_cons, hkw, hdp, hsubj, Bool.not_true, Bool.false_eq_true, if_false]
    rfl

theorem claim_C9_witness : repairStep 2 c9cexClause = (2, []) :=
  claim_C9.1 2 c9cexClause ((r"?x").data)
    (by decide) (by decide) (by decide) (by decide) (by decide)

/-! ### Claim C10: duplicate-variable collapsing -/

/-- Invariant of the collapsing loop: in its output no token both equals its
immediate predecessor and starts with `?`, and the head cannot repeat the
carried previous token if it starts with `?`. -/
lemma collapseGo_spec (prev : Option Str) (ts : List Str) :
    List.Chain' (fun a b => ¬(b = a ∧ b.head? = some '?')) (collapseGo prev ts) ∧
    (∀ h : Str, (collapseGo prev ts).head? = some h →
      ¬(prev = some h ∧ h.head? = some '?')) := by
  induction ts generalizing prev with
  | nil =>
    refine ⟨List.chain'_nil, ?_⟩
    intro h hh
    simp [collapseGo] at hh
  | cons t ts ih =>
    by_cases hc : t.head? = some '?' ∧ prev = some t
    · have he : collapseGo prev (t :: ts) = collapseGo prev ts := by
        rw [collapseGo, if_pos (by simp [hc.1, hc.2])]
      rw [he]
      exact ih prev
    · have he : collapseGo prev (t :: ts) = t :: collapseGo (some t) ts := by
        rw [collapseGo,
          if_neg (by simp only [Bool.and_eq_true, decide_eq_true_eq]; exact hc)]
      rw [he]
      constructor
      · refine List.chain'_cons'.mpr ⟨?_, (ih (some t)).1⟩
        intro y hy hcon
        exact (ih (some t)).2 y hy ⟨by rw [hcon.1], hcon.2⟩
      · intro h hh
        have hht : t = h := by simpa using hh
        subst hht
        rintro ⟨hp, hq⟩
        exact hc ⟨hq, hp⟩

/-- Claim C10: duplicate-variable collapsing removes a token starting with
`?` that equals the immediately preceding kept token (so the output never
contains such an adjacent pair); `?x ?x dbo:p ?y` is therefore treated as the
3-token triple `?x dbo:p ?y`, while a block-keyword clause such as
`FILTER ?x ?x` is still appended in its original, un-collapsed text. -/
theorem claim_C10 :
    (∀ ts : List Str,
      List.Chain' (fun a b => ¬(b = a ∧ b.head? = some '?'))
        (collapse_adjacent_duplicate_vars ts)) ∧
    collapse_adjacent_duplicate_vars (splitWS c10Clause) = splitWS c10Collapsed ∧
    smart_repair_where c10Clause = c10Collapsed ∧
    smart_repair_where c10FilterClause = c10FilterClause :=
  ⟨fun ts => (collapseGo_spec none ts).1, by decide, by decide, by decide⟩
